import Mathlib

/-!
Verification of the Mamdani fuzzy-inference pipeline of `sistema_difuso.py`.

The repository configures trapezoidal membership functions, linguistic
variables and a rule base (functions `configurar_sistema_difuso` and
`crear_reglas`), loads crisp inputs from a CSV file
(`cargar_datos_agricolas`) and runs the inference through the scikit-fuzzy
control objects (`ejecutar_simulacion`).  The configuration and the data
loader are embedded here directly from the source; the inference engine
itself (fuzzification, firing strength, implication, aggregation, centroid
defuzzification) is not part of the repository's own source, so it is
modelled from the specification.

Degrees and crisp values are rationals.  Because the field operations on
`ℚ` are irreducible and hence not evaluable inside proofs, the embedding
computes with the wrappers `qadd`, `qsub`, `qmul`, `qdiv` and `qsum`,
each proved equal to the corresponding field operation (`qadd_eq`,
`qsub_eq`, `qmul_eq`, `qdiv_eq`, `qsum_eq`), so every definition is
executable and all algebraic reasoning happens over the usual operations.
-/

namespace SistemaDifuso

/-- Executable rational division (`qdiv_eq` proves it is `a / b`). -/
def qdiv (a b : ℚ) : ℚ := Rat.divInt (a.num * b.den) (a.den * b.num)

/-- Executable rational addition (`qadd_eq` proves it is `a + b`). -/
def qadd (a b : ℚ) : ℚ :=
  Rat.divInt (a.num * b.den + b.num * a.den) (a.den * b.den)

/-- Executable rational multiplication (`qmul_eq` proves it is `a * b`). -/
def qmul (a b : ℚ) : ℚ := Rat.divInt (a.num * b.num) (a.den * b.den)

/-- Executable rational subtraction (`qsub_eq` proves it is `a - b`). -/
def qsub (a b : ℚ) : ℚ := qadd a (-b)

/-- Executable sum of a list of rationals (`qsum_eq` proves it is `l.sum`). -/
def qsum (l : List ℚ) : ℚ := l.foldr qadd 0

theorem num_eq_mul_den (a : ℚ) : (a.num : ℚ) = a * a.den := by
  have had : (a.den : ℚ) ≠ 0 := by
    exact_mod_cast a.den_nz
  rw [eq_comm, ← eq_div_iff had]
  exact (Rat.num_div_den a).symm

theorem qdiv_eq (a b : ℚ) : qdiv a b = a / b := by
  rw [qdiv, Rat.divInt_eq_div]
  push_cast
  have had : (a.den : ℚ) ≠ 0 := by exact_mod_cast a.den_nz
  have hbd : (b.den : ℚ) ≠ 0 := by exact_mod_cast b.den_nz
  rcases eq_or_ne b 0 with hb | hb
  · subst hb
    simp
  · have hbn : (b.num : ℚ) ≠ 0 := by
      exact_mod_cast Rat.num_ne_zero.2 hb
    rw [div_eq_div_iff (mul_ne_zero had hbn) hb, num_eq_mul_den a,
      num_eq_mul_den b]
    ring

theorem qadd_eq (a b : ℚ) : qadd a b = a + b := by
  rw [qadd, Rat.divInt_eq_div]
  push_cast
  have had : (a.den : ℚ) ≠ 0 := by exact_mod_cast a.den_nz
  have hbd : (b.den : ℚ) ≠ 0 := by exact_mod_cast b.den_nz
  rw [div_eq_iff (mul_ne_zero had hbd), num_eq_mul_den a, num_eq_mul_den b]
  ring

theorem qmul_eq (a b : ℚ) : qmul a b = a * b := by
  rw [qmul, Rat.divInt_eq_div]
  push_cast
  have had : (a.den : ℚ) ≠ 0 := by exact_mod_cast a.den_nz
  have hbd : (b.den : ℚ) ≠ 0 := by exact_mod_cast b.den_nz
  rw [div_eq_iff (mul_ne_zero had hbd), num_eq_mul_den a, num_eq_mul_den b]
  ring

theorem qsub_eq (a b : ℚ) : qsub a b = a - b := by
  rw [qsub, qadd_eq, sub_eq_add_neg]

theorem qsum_eq (l : List ℚ) : qsum l = l.sum := by
  induction l with
  | nil => rfl
  | cons a l ih => rw [qsum, List.foldr_cons, qadd_eq, List.sum_cons, ← ih]; rfl

/-- Trapezoidal membership-function parameters `[a, b, c, d]`,
as passed to `fuzz.trapmf` in the source. -/
structure Trap where
  a : ℚ
  b : ℚ
  c : ℚ
  d : ℚ
deriving DecidableEq, Repr

/-- Modelled from the spec: trapezoid evaluation (§4.1), the engine side of
`fuzz.trapmf`, which is not in the repository source.  Degree is 1 on the
plateau `[b, c]`, 0 outside `(a, d)`, linear on the rising segment `(a, b)`
and on the falling segment `(c, d)`.  Testing the plateau first makes a
zero-width rising (falling) segment a step: no division by zero when
`b == a` or `d == c`. -/
def trapmf (t : Trap) (x : ℚ) : ℚ :=
  if t.b ≤ x ∧ x ≤ t.c then 1
  else if x ≤ t.a ∨ t.d ≤ x then 0
  else if x < t.b then qdiv (qsub x t.a) (qsub t.b t.a)
  else qdiv (qsub t.d x) (qsub t.d t.c)

/-- Modelled from the spec: clamp a crisp value into a universe's
`[min, max]` (§4.1); the source also clips its inputs with `np.clip`
before assigning them (lines 124–126). -/
def clamp (lo hi x : ℚ) : ℚ := max lo (min hi x)

/-- A linguistic variable: a universe `[lo, hi]` with its sample points and
the named trapezoidal sets, as built by `configurar_sistema_difuso`. -/
structure LinguisticVariable where
  name : String
  lo : ℚ
  hi : ℚ
  points : List ℚ
  sets : List (String × Trap)
deriving Repr

/-- Modelled from the spec: fuzzification (§4.2) evaluates every set's
membership function at the clamped crisp value. -/
def fuzzify (v : LinguisticVariable) (x : ℚ) : List (String × ℚ) :=
  v.sets.map (fun p => (p.1, trapmf p.2 (clamp v.lo v.hi x)))

/-- Antecedent propositions: leaf `variable[set]`, `&` and `|`,
as used in `crear_reglas`. -/
inductive FProp where
  | leaf (var set : String)
  | and (l r : FProp)
  | or (l r : FProp)
deriving DecidableEq, Repr

/-- The fuzzified-degrees environment: per variable name, the set-name to
degree mapping produced by `fuzzify`. -/
abbrev Env := List (String × List (String × ℚ))

/-- Modelled from the spec: proposition evaluation (§4.3).  A leaf looks up
its variable's fuzzified degrees and fails (`none`, the
UnknownReferenceError) when the variable was not fuzzified; `and` is `min`,
`or` is `max`. -/
def evalProp : FProp → Env → Option ℚ
  | .leaf v s, env => (env.lookup v).bind (fun ds => ds.lookup s)
  | .and l r, env =>
      match evalProp l env, evalProp r env with
      | some p, some q => some (min p q)
      | _, _ => none
  | .or l r, env =>
      match evalProp l env, evalProp r env with
      | some p, some q => some (max p q)
      | _, _ => none

/-- A rule: antecedent proposition, consequent `(variable, set)` pair and a
weight (1 for every rule of `crear_reglas`). -/
structure Rule where
  antecedent : FProp
  consVar : String
  consSet : Trap
  weight : ℚ := 1
deriving Repr

/-- Clip a degree to `[0, 1]`. -/
def clip01 (q : ℚ) : ℚ := max 0 (min 1 q)

/-- Modelled from the spec: firing strength (§4.3) is the antecedent's
evaluation times the rule's weight, clipped to `[0, 1]`. -/
def firing (env : Env) (r : Rule) : Option ℚ :=
  (evalProp r.antecedent env).map (fun d => clip01 (qmul d r.weight))

/-- Firing strength with an unfuzzified reference reading as degree 0
(used once the orchestration has checked the inputs). -/
def firingD (env : Env) (r : Rule) : ℚ := (firing env r).getD 0

/-- Modelled from the spec: Mamdani min-implication (§4.4), the rule's
implied degree at a sample point `x` of its consequent's universe. -/
def impliedAt (env : Env) (r : Rule) (x : ℚ) : ℚ :=
  min (firingD env r) (trapmf r.consSet x)

/-- Modelled from the spec: aggregation (§4.4), the pointwise maximum of
the implied curves of the rules targeting the variable `var`. -/
def aggregatedAt (rules : List Rule) (env : Env) (var : String) (x : ℚ) : ℚ :=
  (((rules.filter (fun r => r.consVar = var)).map
      (fun r => impliedAt env r x)).foldr max 0)

/-- Modelled from the spec: centroid defuzzification (§4.5) over the curve
`μ` sampled at `pts`; when the sampled curve sums to 0 the division is not
performed and the explicit undefined-output marker `none` is returned. -/
def defuzz (pts : List ℚ) (μ : ℚ → ℚ) : Option ℚ :=
  if qsum (pts.map μ) = 0 then none
  else some (qdiv (qsum (pts.map (fun x => qmul x (μ x)))) (qsum (pts.map μ)))

/-- Modelled from the spec: the crisp output (or undefined marker) that
`compute` produces for one consequent variable (§4.5, §4.6). -/
def outputFor (rules : List Rule) (env : Env) (lv : LinguisticVariable) :
    Option ℚ :=
  defuzz lv.points (fun x => aggregatedAt rules env lv.name x)

/-- The antecedent variables referenced by a proposition. -/
def propVars : FProp → List String
  | .leaf v _ => [v]
  | .and l r => propVars l ++ propVars r
  | .or l r => propVars l ++ propVars r

/-- All antecedent variables referenced by a rule base. -/
def refVars (rules : List Rule) : List String :=
  (rules.map (fun r => propVars r.antecedent)).flatten

/-- Modelled from the spec: the environment `compute` builds, fuzzifying
every antecedent variable with its supplied crisp input. -/
def buildEnv (lvs : List LinguisticVariable)
    (inputs : List (String × ℚ)) : Env :=
  lvs.filterMap (fun lv =>
    (inputs.lookup lv.name).map (fun x => (lv.name, fuzzify lv x)))

/-- Modelled from the spec: orchestration `compute` (§4.6).  Fails with
`MissingInputError` when a referenced antecedent variable has no input
entry, returning no partial result; otherwise fuzzifies the inputs,
aggregates and defuzzifies every consequent variable in `outs`. -/
def compute (lvs : List LinguisticVariable) (outs : List LinguisticVariable)
    (rules : List Rule) (inputs : List (String × ℚ)) :
    Except String (List (String × Option ℚ)) :=
  if (refVars rules).all (fun v => (inputs.lookup v).isSome) then
    let env := buildEnv lvs inputs
    .ok (outs.map (fun lv => (lv.name, outputFor rules env lv)))
  else
    .error "MissingInputError"

/-! ## The configuration of `configurar_sistema_difuso` and `crear_reglas` -/

/-- Integer sample points `lo, lo+1, …, hi`, as `np.arange(lo, hi+1, 1)`. -/
def rangePts (lo hi : ℤ) : List ℚ :=
  (List.range (hi - lo + 1).toNat).map (fun i => ((lo + i : ℤ) : ℚ))

/-- `humedad`: universe `np.arange(0, 101, 1)` with sets baja/media/alta
(source lines 52, 58, 64–66). -/
def humedad : LinguisticVariable :=
  { name := "humedad", lo := 0, hi := 100, points := rangePts 0 100,
    sets := [("baja", ⟨0, 0, 30, 50⟩), ("media", ⟨30, 50, 70, 90⟩),
             ("alta", ⟨70, 90, 100, 100⟩)] }

/-- `temperatura`: universe `np.arange(0, 51, 1)` with sets
fria/optima/caliente (source lines 53, 59, 68–70). -/
def temperatura : LinguisticVariable :=
  { name := "temperatura", lo := 0, hi := 50, points := rangePts 0 50,
    sets := [("fria", ⟨0, 0, 10, 20⟩), ("optima", ⟨10, 20, 30, 40⟩),
             ("caliente", ⟨30, 40, 50, 50⟩)] }

/-- `etapa`: universe `np.arange(0, 101, 1)` with sets inicial/final
(source lines 54, 60, 72–73). -/
def etapa : LinguisticVariable :=
  { name := "etapa", lo := 0, hi := 100, points := rangePts 0 100,
    sets := [("inicial", ⟨0, 0, 30, 60⟩), ("final", ⟨40, 70, 100, 100⟩)] }

/-- `optima`: consequent universe `np.arange(10, 41, 1)` with sets
enfriar/mantener/calentar (source lines 55, 61, 75–77). -/
def optima : LinguisticVariable :=
  { name := "optima", lo := 10, hi := 40, points := rangePts 10 40,
    sets := [("enfriar", ⟨10, 10, 15, 25⟩), ("mantener", ⟨15, 25, 30, 35⟩),
             ("calentar", ⟨30, 35, 40, 40⟩)] }

/-- The `calentar` consequent set, `fuzz.trapmf(output_range, [30,35,40,40])`
(source line 77). -/
def calentar : Trap := ⟨30, 35, 40, 40⟩

/-- The six rules of `crear_reglas` (source lines 101–113), in order. -/
def crear_reglas : List Rule :=
  [ { antecedent := .and (.leaf "humedad" "baja") (.leaf "temperatura" "fria"),
      consVar := "optima", consSet := calentar },
    { antecedent := .and (.leaf "humedad" "media")
        (.leaf "temperatura" "optima"),
      consVar := "optima", consSet := ⟨15, 25, 30, 35⟩ },
    { antecedent := .and (.leaf "humedad" "alta")
        (.leaf "temperatura" "caliente"),
      consVar := "optima", consSet := ⟨10, 10, 15, 25⟩ },
    { antecedent := .leaf "etapa" "inicial",
      consVar := "optima", consSet := ⟨15, 25, 30, 35⟩ },
    { antecedent := .and (.leaf "etapa" "final")
        (.leaf "temperatura" "caliente"),
      consVar := "optima", consSet := ⟨10, 10, 15, 25⟩ },
    { antecedent := .leaf "temperatura" "optima",
      consVar := "optima", consSet := ⟨15, 25, 30, 35⟩ } ]

/-- The single rule `humedad['baja'] & temperatura['fria'] →
optima['calentar']` of the end-to-end scenario (source line 103). -/
def reglaCalentar : Rule :=
  { antecedent := .and (.leaf "humedad" "baja") (.leaf "temperatura" "fria"),
    consVar := "optima", consSet := calentar }

/-- The environment obtained by fuzzifying the scenario inputs
humidity = 20, temperature = 5. -/
def envScenario : Env :=
  buildEnv [humedad, temperatura, etapa, optima]
    [("humedad", 20), ("temperatura", 5)]

/-- Taken from the spec's words for comparison: the exact (continuous)
centroid of a trapezoid `[a,b,c,d]`, computed directly from the geometry
(rising segment, plateau, falling segment). -/
def contCentroid (t : Trap) : ℚ :=
  let area := (t.c - t.b) + (t.b - t.a) / 2 + (t.d - t.c) / 2
  let mom := (t.c ^ 2 - t.b ^ 2) / 2 + (t.b - t.a) * (2 * t.b + t.a) / 6
    + (t.d - t.c) * (t.d + 2 * t.c) / 6
  mom / area

/-! ## The data loader `cargar_datos_agricolas` (source lines 12–47) -/

/-- The loaded tabular data: named numeric columns, abstracting the
`pandas` dataframe. -/
structure DataFrame where
  cols : List (String × List ℚ)

/-- Column mean, as `df[col].mean()`. -/
def mean (xs : List ℚ) : ℚ := qdiv (qsum xs) ((xs.length : ℤ) : ℚ)

/-- The loader `cargar_datos_agricolas` (source lines 12–47) over the
outcome of `pd.read_csv`: a read failure, or a dataframe in which a column
lookup can still fail (the `KeyError` swallowed by the blanket `except`).
Detects the `temperature` schema first, then the `Soil Moisture` schema;
any failure and any unrecognized schema yield the defaults `(25, 60)`. -/
def cargar_datos_agricolas (res : Except Unit DataFrame) : ℚ × ℚ :=
  match res with
  | .error _ => (25, 60)
  | .ok df =>
    if (df.cols.lookup "temperature").isSome then
      match df.cols.lookup "temperature", df.cols.lookup "humidity" with
      | some t, some h => (mean t, mean h)
      | _, _ => (25, 60)
    else if (df.cols.lookup "Soil Moisture").isSome then
      match df.cols.lookup "Temperature", df.cols.lookup "Soil Moisture" with
      | some t, some h => (mean t, mean h)
      | _, _ => (25, 60)
    else
      (25, 60)

/-! ## Helper lemmas -/

theorem trapmf_nonneg (t : Trap) (x : ℚ) : 0 ≤ trapmf t x := by
  unfold trapmf
  split_ifs with h1 h2 h3
  · exact zero_le_one
  · exact le_refl 0
  · push_neg at h2
    rw [qdiv_eq, qsub_eq, qsub_eq]
    apply div_nonneg <;> linarith [h2.1]
  · push_neg at h1 h2
    have hbx : t.b ≤ x := not_lt.1 h3
    have hcx : t.c < x := h1 hbx
    rw [qdiv_eq, qsub_eq, qsub_eq]
    apply div_nonneg <;> linarith [h2.2]

theorem trapmf_le_one (t : Trap) (x : ℚ) : trapmf t x ≤ 1 := by
  unfold trapmf
  split_ifs with h1 h2 h3
  · exact le_refl 1
  · exact zero_le_one
  · push_neg at h2
    rw [qdiv_eq, qsub_eq, qsub_eq]
    rw [div_le_one (by linarith [h2.1])]
    linarith
  · push_neg at h1 h2
    have hbx : t.b ≤ x := not_lt.1 h3
    have hcx : t.c < x := h1 hbx
    rw [qdiv_eq, qsub_eq, qsub_eq]
    rw [div_le_one (by linarith [h2.2])]
    linarith

theorem clip01_nonneg (q : ℚ) : 0 ≤ clip01 q := le_max_left 0 _

theorem firingD_nonneg (env : Env) (r : Rule) : 0 ≤ firingD env r := by
  unfold firingD firing
  cases evalProp r.antecedent env with
  | none => exact le_refl 0
  | some d => exact clip01_nonneg _

theorem impliedAt_nonneg (env : Env) (r : Rule) (x : ℚ) :
    0 ≤ impliedAt env r x :=
  le_min (firingD_nonneg env r) (trapmf_nonneg r.consSet x)

theorem foldr_max_nonneg (l : List ℚ) : 0 ≤ l.foldr max 0 := by
  induction l with
  | nil => exact le_refl 0
  | cons a l ih => exact le_trans ih (le_max_right a _)

theorem le_foldr_max {l : List ℚ} {a : ℚ} (h : a ∈ l) : a ≤ l.foldr max 0 := by
  induction l with
  | nil => cases h
  | cons b l ih =>
    rcases List.mem_cons.1 h with rfl | h
    · exact le_max_left a _
    · exact le_trans (ih h) (le_max_right b _)

theorem foldr_max_mem (l : List ℚ) : l.foldr max 0 = 0 ∨ l.foldr max 0 ∈ l := by
  induction l with
  | nil => exact Or.inl rfl
  | cons a l ih =>
    rcases le_total a (l.foldr max 0) with h | h
    · rw [List.foldr_cons, max_eq_right h]
      rcases ih with h0 | hm
      · exact Or.inl h0
      · exact Or.inr (List.mem_cons_of_mem a hm)
    · rw [List.foldr_cons, max_eq_left h]
      exact Or.inr (List.mem_cons_self a l)

theorem aggregatedAt_nonneg (rules : List Rule) (env : Env) (var : String)
    (x : ℚ) : 0 ≤ aggregatedAt rules env var x :=
  foldr_max_nonneg _

theorem aggregatedAt_cons (r : Rule) (rs : List Rule) (env : Env)
    (var : String) (x : ℚ) :
    aggregatedAt (r :: rs) env var x =
      if r.consVar = var then
        max (impliedAt env r x) (aggregatedAt rs env var x)
      else aggregatedAt rs env var x := by
  unfold aggregatedAt
  by_cases h : r.consVar = var
  · simp [List.filter_cons, h]
  · simp [List.filter_cons, h]

theorem aggregatedAt_eq_zero {rules : List Rule} {env : Env} {var : String}
    (x : ℚ) (h : ∀ r ∈ rules, r.consVar = var → firingD env r = 0) :
    aggregatedAt rules env var x = 0 := by
  induction rules with
  | nil => rfl
  | cons r rs ih =>
    have ih' := ih (fun r' hr' => h r' (List.mem_cons_of_mem r hr'))
    rw [aggregatedAt_cons]
    split_ifs with hcv
    · rw [impliedAt, h r (List.mem_cons_self r rs) hcv,
        min_eq_left (trapmf_nonneg _ _), ih', max_self]
    · exact ih'

theorem centroid_bounds (pts : List ℚ) (μ : ℚ → ℚ) (lo hi : ℚ)
    (hpts : ∀ x ∈ pts, lo ≤ x ∧ x ≤ hi)
    (hμ : ∀ x ∈ pts, 0 ≤ μ x)
    (hs : (pts.map μ).sum ≠ 0) :
    lo ≤ (pts.map (fun x => x * μ x)).sum / (pts.map μ).sum ∧
      (pts.map (fun x => x * μ x)).sum / (pts.map μ).sum ≤ hi := by
  have hs0 : 0 ≤ (pts.map μ).sum := by
    apply List.sum_nonneg
    intro a ha
    obtain ⟨x, hx, rfl⟩ := List.mem_map.1 ha
    exact hμ x hx
  have hpos : 0 < (pts.map μ).sum := lt_of_le_of_ne hs0 (Ne.symm hs)
  constructor
  · rw [le_div_iff₀ hpos, ← List.sum_map_mul_left]
    exact List.sum_le_sum (fun x hx =>
      mul_le_mul_of_nonneg_right (hpts x hx).1 (hμ x hx))
  · rw [div_le_iff₀ hpos, ← List.sum_map_mul_left]
    exact List.sum_le_sum (fun x hx =>
      mul_le_mul_of_nonneg_right (hpts x hx).2 (hμ x hx))

/-! ## Claim theorems -/

set_option maxRecDepth 8000

/-- Claim C1: for the source configuration (humidity set `baja` =
trapezoid(0,0,30,50), temperature set `fria` = trapezoid(0,0,10,20),
consequent set `calentar` = trapezoid(30,35,40,40) over [10,40]) and the
rule `humedad['baja'] & temperatura['fria'] → optima['calentar']`, crisp
inputs humidity = 20 and temperature = 5 give firing strength 1, an
aggregated curve equal to the `calentar` membership function sampled over
the output universe, and a crisp output within one sample step (1) of the
directly computed centroid of trapezoid(30,35,40,40). -/
theorem end_to_end_scenario :
    firingD envScenario reglaCalentar = 1 ∧
    optima.points.map
        (fun x => aggregatedAt [reglaCalentar] envScenario "optima" x)
      = optima.points.map (trapmf calentar) ∧
    ∃ crisp, outputFor [reglaCalentar] envScenario optima = some crisp ∧
      |crisp - contCentroid calentar| ≤ 1 := by
  refine ⟨by decide, by decide, qdiv 291 8, by decide, ?_⟩
  rw [qdiv_eq]
  norm_num [contCentroid, calentar]
  rw [abs_le]
  constructor <;> norm_num

/-- Claim C2: at every sample point the aggregated degree is the maximum of
the implied degrees `min(firingStrength, membership)` of the rules
targeting the variable (it bounds every one of them and is attained by one
unless zero), and dropping the rules with firing strength 0 leaves the
aggregated curve unchanged. -/
theorem aggregation_pointwise_max (rules : List Rule) (env : Env)
    (var : String) (x : ℚ) :
    (∀ r ∈ rules, r.consVar = var →
        impliedAt env r x ≤ aggregatedAt rules env var x) ∧
    (aggregatedAt rules env var x = 0 ∨
      ∃ r ∈ rules, r.consVar = var ∧
        aggregatedAt rules env var x = impliedAt env r x) ∧
    aggregatedAt (rules.filter (fun r => firingD env r ≠ 0)) env var x =
      aggregatedAt rules env var x := by
  refine ⟨?_, ?_, ?_⟩
  · intro r hr hcv
    apply le_foldr_max
    exact List.mem_map_of_mem _ (List.mem_filter.2 ⟨hr, by simp [hcv]⟩)
  · rcases foldr_max_mem ((rules.filter (fun r => r.consVar = var)).map
        (fun r => impliedAt env r x)) with h0 | hm
    · exact Or.inl h0
    · obtain ⟨r, hr, heq⟩ := List.mem_map.1 hm
      obtain ⟨hrr, hcv⟩ := List.mem_filter.1 hr
      exact Or.inr ⟨r, hrr, by simpa using hcv, heq.symm⟩
  · induction rules with
    | nil => rfl
    | cons r rs ih =>
      by_cases hf : firingD env r = 0
      · have himp : impliedAt env r x = 0 := by
          rw [impliedAt, hf, min_eq_left (trapmf_nonneg _ _)]
        rw [List.filter_cons, if_neg (by simp [hf]), ih, aggregatedAt_cons]
        split_ifs with hcv
        · rw [himp, max_eq_right (aggregatedAt_nonneg rs env var x)]
        · rfl
      · rw [List.filter_cons, if_pos (by simp [hf]), aggregatedAt_cons,
          aggregatedAt_cons, ih]

/-- Witness for C2, at a concrete rule base, environment and point. -/
theorem aggregation_pointwise_max_witness :
    impliedAt envScenario reglaCalentar 36 ≤
      aggregatedAt [reglaCalentar] envScenario "optima" 36 :=
  (aggregation_pointwise_max [reglaCalentar] envScenario "optima" 36).1
    reglaCalentar (List.mem_singleton.2 rfl) rfl

/-- Claim C3: whenever the aggregated curve sampled at the universe's
points has positive sum, defuzzification returns the centroid
`Σ(x·μ(x)) / Σ(μ(x))`. -/
theorem defuzz_is_centroid (pts : List ℚ) (μ : ℚ → ℚ)
    (h : 0 < (pts.map μ).sum) :
    defuzz pts μ =
      some ((pts.map (fun x => x * μ x)).sum / (pts.map μ).sum) := by
  unfold defuzz
  simp only [qsum_eq, qdiv_eq, qmul_eq]
  rw [if_neg (ne_of_gt h)]

/-- Witness for C3: a two-point curve with positive sum. -/
theorem defuzz_is_centroid_witness :
    defuzz [1, 3] (fun _ => 1) =
      some (([(1 : ℚ), 3].map (fun x => x * 1)).sum /
        ([(1 : ℚ), 3].map (fun _ => 1)).sum) :=
  defuzz_is_centroid [1, 3] (fun _ => 1) (by norm_num)

/-- Claim C4: when every rule targeting the consequent variable has firing
strength 0, the aggregated curve sums to 0, the centroid division is not
performed, and the computed output for that variable is the explicit
undefined marker `none` (never a number, never 0). -/
theorem no_rule_fired_undefined (rules : List Rule) (env : Env)
    (lv : LinguisticVariable)
    (h : ∀ r ∈ rules, r.consVar = lv.name → firingD env r = 0) :
    outputFor rules env lv = none := by
  unfold outputFor defuzz
  rw [if_pos]
  rw [List.map_congr_left (fun x _ => aggregatedAt_eq_zero x h), qsum_eq]
  simp

/-- Witness for C4: against the source's six rules, an environment that
fuzzifies none of the antecedents makes every firing strength 0, and the
output for `optima` is the undefined marker. -/
theorem no_rule_fired_undefined_witness :
    outputFor crear_reglas [] optima = none :=
  no_rule_fired_undefined crear_reglas [] optima (by decide)

/-- Claim C5: computing with an input mapping that lacks an entry for an
antecedent variable referenced by the rule base fails with
`MissingInputError` and returns no partial result. -/
theorem missing_input_error (lvs outs : List LinguisticVariable)
    (rules : List Rule) (inputs : List (String × ℚ)) (v : String)
    (hv : v ∈ refVars rules) (hmiss : inputs.lookup v = none) :
    compute lvs outs rules inputs = .error "MissingInputError" := by
  unfold compute
  rw [if_neg]
  intro hall
  have := List.all_eq_true.1 hall v hv
  rw [hmiss] at this
  simp at this

/-- Witness for C5: `compute({})` against the source rule base, which
references `humedad` and `temperatura`, fails with `MissingInputError`. -/
theorem missing_input_error_witness :
    compute [humedad, temperatura, etapa] [optima] crear_reglas [] =
      .error "MissingInputError" :=
  missing_input_error [humedad, temperatura, etapa] [optima] crear_reglas []
    "humedad" (by decide) rfl

/-- Claim C6: fuzzifying a crisp value above the universe's maximum yields
exactly the degrees of fuzzifying the maximum, and below the minimum those
of the minimum: out-of-range inputs are clamped, not rejected. -/
theorem fuzzify_clamps (lv : LinguisticVariable) (v : ℚ)
    (hlh : lv.lo ≤ lv.hi) :
    (lv.hi < v → fuzzify lv v = fuzzify lv lv.hi) ∧
    (v < lv.lo → fuzzify lv v = fuzzify lv lv.lo) := by
  constructor
  · intro h
    unfold fuzzify
    rw [show clamp lv.lo lv.hi v = clamp lv.lo lv.hi lv.hi by
      unfold clamp
      rw [min_eq_left (le_of_lt h), min_self]]
  · intro h
    unfold fuzzify
    rw [show clamp lv.lo lv.hi v = clamp lv.lo lv.hi lv.lo by
      unfold clamp
      rw [min_eq_right (le_of_lt (lt_of_lt_of_le h hlh)),
        max_eq_left (le_of_lt h), min_eq_right hlh, max_self]]

/-- Witness for C6: fuzzifying `humedad` at 120 (above the maximum 100)
equals fuzzifying at 100, and at -5 (below the minimum 0) equals
fuzzifying at 0. -/
theorem fuzzify_clamps_witness :
    fuzzify humedad 120 = fuzzify humedad humedad.hi ∧
    fuzzify humedad (-5) = fuzzify humedad humedad.lo :=
  ⟨(fuzzify_clamps humedad 120 (by decide)).1 (by decide),
   (fuzzify_clamps humedad (-5) (by decide)).2 (by decide)⟩

/-- Claim C7: for all propositions and every fuzzified-degree environment
in which they evaluate, the strength of `And(P,Q)` is the minimum of the
strengths of `P` and `Q`, and the strength of `Or(P,Q)` is their
maximum. -/
theorem evalProp_and_or (P Q : FProp) (env : Env) (p q : ℚ)
    (hP : evalProp P env = some p) (hQ : evalProp Q env = some q) :
    evalProp (.and P Q) env = some (min p q) ∧
    evalProp (.or P Q) env = some (max p q) := by
  constructor <;> simp [evalProp, hP, hQ]

/-- Witness for C7: the two leaves of the scenario rule. -/
theorem evalProp_and_or_witness :
    evalProp (.and (.leaf "humedad" "baja") (.leaf "temperatura" "fria"))
        envScenario = some (min 1 1) ∧
    evalProp (.or (.leaf "humedad" "baja") (.leaf "temperatura" "fria"))
        envScenario = some (max 1 1) :=
  evalProp_and_or (.leaf "humedad" "baja") (.leaf "temperatura" "fria")
    envScenario 1 1 (by decide) (by decide)

/-- Claim C8: trapezoid evaluation is total and in `[0,1]` for every
parameterization, with no division by zero when `b == a` or `d == c`; a
zero-width rising segment (`a == b`) behaves as a step, giving degree 1 at
that edge point, and symmetrically for a zero-width falling segment
(`c == d`). -/
theorem trapmf_total_vertical_edges (t : Trap) :
    (∀ x, 0 ≤ trapmf t x ∧ trapmf t x ≤ 1) ∧
    (t.b = t.a → t.a ≤ t.c → trapmf t t.a = 1) ∧
    (t.c = t.d → t.b ≤ t.d → trapmf t t.d = 1) := by
  refine ⟨fun x => ⟨trapmf_nonneg t x, trapmf_le_one t x⟩, ?_, ?_⟩
  · intro hba hac
    unfold trapmf
    rw [if_pos ⟨le_of_eq hba, hac⟩]
  · intro hcd hbd
    unfold trapmf
    rw [if_pos ⟨hbd, le_of_eq hcd.symm⟩]

/-- Witness for C8: the vertical-edge sets of the source, `baja` =
trapezoid(0,0,30,50) at its universe minimum 0 and `calentar` =
trapezoid(30,35,40,40) at its universe maximum 40, both evaluate to 1. -/
theorem trapmf_total_vertical_edges_witness :
    trapmf ⟨0, 0, 30, 50⟩ 0 = 1 ∧ trapmf calentar 40 = 1 :=
  ⟨(trapmf_total_vertical_edges ⟨0, 0, 30, 50⟩).2.1 rfl (by norm_num),
   (trapmf_total_vertical_edges calentar).2.2 rfl (by norm_num [calentar])⟩

/-- Claim C9: the data loader returns the column means `(temperature,
humidity)` under the `temperature`/`humidity` schema, the column means
`(Temperature, Soil Moisture)` under the `Temperature`/`Soil Moisture`
schema, and the fixed defaults `(25, 60)` on any read failure, on a
recognized schema whose companion column is missing, and on an
unrecognized schema; the failure never propagates (the loader is total). -/
theorem cargar_datos_agricolas_spec :
    (∀ u, cargar_datos_agricolas (.error u) = (25, 60)) ∧
    (∀ df t h, df.cols.lookup "temperature" = some t →
      df.cols.lookup "humidity" = some h →
      cargar_datos_agricolas (.ok df) = (mean t, mean h)) ∧
    (∀ df t, df.cols.lookup "temperature" = some t →
      df.cols.lookup "humidity" = none →
      cargar_datos_agricolas (.ok df) = (25, 60)) ∧
    (∀ df t h, df.cols.lookup "temperature" = none →
      df.cols.lookup "Soil Moisture" = some h →
      df.cols.lookup "Temperature" = some t →
      cargar_datos_agricolas (.ok df) = (mean t, mean h)) ∧
    (∀ df h, df.cols.lookup "temperature" = none →
      df.cols.lookup "Soil Moisture" = some h →
      df.cols.lookup "Temperature" = none →
      cargar_datos_agricolas (.ok df) = (25, 60)) ∧
    (∀ df, df.cols.lookup "temperature" = none →
      df.cols.lookup "Soil Moisture" = none →
      cargar_datos_agricolas (.ok df) = (25, 60)) := by
  refine ⟨fun u => rfl, ?_, ?_, ?_, ?_, ?_⟩
  · intro df t h ht hh
    simp [cargar_datos_agricolas, ht, hh]
  · intro df t ht hh
    simp [cargar_datos_agricolas, ht, hh]
  · intro df t h ht hs hT
    simp [cargar_datos_agricolas, ht, hs, hT]
  · intro df h ht hs hT
    simp [cargar_datos_agricolas, ht, hs, hT]
  · intro df ht hs
    simp [cargar_datos_agricolas, ht, hs]

/-- Witness for C9: a dataframe with the `temperature`/`humidity` schema
yields the two column means. -/
theorem cargar_datos_agricolas_spec_witness :
    cargar_datos_agricolas
        (.ok ⟨[("temperature", [10, 20]), ("humidity", [40, 60])]⟩) =
      (mean [10, 20], mean [40, 60]) :=
  cargar_datos_agricolas_spec.2.1 ⟨[("temperature", [10, 20]),
    ("humidity", [40, 60])]⟩ [10, 20] [40, 60] rfl rfl

/-- Claim C10: whenever the engine produces a defined crisp output for the
consequent variable `optima` of the source rule base, that output lies in
the consequent universe `[10, 40]`: the centroid of a nonnegative
aggregated curve sampled over `[10, 40]` cannot leave that interval. -/
theorem optima_output_in_universe (env : Env) (q : ℚ)
    (h : outputFor crear_reglas env optima = some q) :
    10 ≤ q ∧ q ≤ 40 := by
  unfold outputFor defuzz at h
  by_cases hz : qsum (optima.points.map
      (fun x => aggregatedAt crear_reglas env optima.name x)) = 0
  · rw [if_pos hz] at h
    cases h
  · rw [if_neg hz] at h
    have hq := Option.some.inj h
    rw [qdiv_eq, qsum_eq, qsum_eq] at hq
    simp only [qmul_eq] at hq
    rw [qsum_eq] at hz
    subst hq
    exact centroid_bounds optima.points
      (fun x => aggregatedAt crear_reglas env optima.name x) 10 40
      (by decide) (fun x _ => aggregatedAt_nonneg crear_reglas env _ x) hz

/-- Witness for C10: at the scenario inputs the six-rule system produces
the defined output 291/8, which lies in `[10, 40]`. -/
theorem optima_output_in_universe_witness :
    10 ≤ qdiv 291 8 ∧ qdiv 291 8 ≤ 40 :=
  optima_output_in_universe envScenario (qdiv 291 8) (by decide)

end SistemaDifuso
